/-
Verification of the AcCoRD geometry kernel (boundary.c), chemical-reaction
compiler (chem_rxn.c) and configuration loader (file_io.c) against their
natural-language specification.

Conventions of the shallow embedding:
* C doubles are embedded as real numbers; a boundary array double[6] becomes
  a function Fin 6 -> Real and a point double[3] becomes Fin 3 -> Real.
* A C division that the source executes unconditionally is embedded through
  checkedDiv, which returns none exactly when the divisor is zero (the case
  in which the C double division would produce an infinity or a NaN).
* A call to exit(EXIT_FAILURE) is embedded as the result none of an
  Option-valued function.
* Boolean-valued C predicates built from comparisons are embedded as Prop.
-/
import Mathlib

noncomputable section

namespace AcCoRD

/-- squareDBL from boundary.c: the square of a double. -/
def squareDBL (x : ℝ) : ℝ := x * x

/-- The constant PI from global_param.h. -/
def PI : ℝ := Real.pi

/-- The boundary shapes of global_param.h that boundary.c dispatches on. -/
inductive BoundaryShape
  | RECTANGLE
  | RECTANGULAR_BOX
  | CIRCLE
  | SPHERE
  | CYLINDER
  | LINE

/-- The volume of a RECTANGULAR_BOX, i.e. the case RECTANGULAR_BOX of
boundaryVolume in boundary.c.  The case RECTANGLE of the C switch falls
through into this case when none of its three degenerate-dimension tests
fires. -/
def boxVolume (boundary1 : Fin 6 → ℝ) : ℝ :=
  if boundary1 1 < boundary1 0 ∨ boundary1 3 < boundary1 2 ∨
      boundary1 5 < boundary1 4 then 0
  else (boundary1 1 - boundary1 0) * (boundary1 3 - boundary1 2) *
      (boundary1 5 - boundary1 4)

/-- boundaryVolume from boundary.c.  In the SPHERE case the C source reads
4 / 3 * PI * boundary1[3] * boundary1[3] * boundary1[3], in which 4 / 3 is
evaluated in int arithmetic before the promotion to double; the embedding
keeps that integer quotient as the cast of (4 / 3 : ℤ). -/
def boundaryVolume (boundary1Type : BoundaryShape) (boundary1 : Fin 6 → ℝ) :
    ℝ :=
  match boundary1Type with
  | .RECTANGLE =>
    if boundary1 1 < boundary1 0 ∨ boundary1 3 < boundary1 2 ∨
        boundary1 5 < boundary1 4 then 0
    else if boundary1 0 = boundary1 1 then
      (boundary1 5 - boundary1 4) * (boundary1 3 - boundary1 2)
    else if boundary1 2 = boundary1 3 then
      (boundary1 1 - boundary1 0) * (boundary1 5 - boundary1 4)
    else if boundary1 4 = boundary1 5 then
      (boundary1 1 - boundary1 0) * (boundary1 3 - boundary1 2)
    else boxVolume boundary1
  | .RECTANGULAR_BOX => boxVolume boundary1
  | .CIRCLE => PI * squareDBL (boundary1 3)
  | .SPHERE =>
    ((4 / 3 : ℤ) : ℝ) * PI * boundary1 3 * boundary1 3 * boundary1 3
  | .CYLINDER => 2 * PI * boundary1 3 * boundary1 3 * boundary1 5
  | .LINE =>
    Real.sqrt (squareDBL (boundary1 1 - boundary1 0) +
      squareDBL (boundary1 3 - boundary1 2) +
      squareDBL (boundary1 5 - boundary1 4))

/-- C1: boundaryVolume for a SPHERE of radius 1 returns pi rather than the
(4/3) pi demanded by the specification, because the C source evaluates
4 / 3 with integer division.  The claim that the coefficient is the
rational 4/3 is therefore false on the code. -/
theorem boundaryVolume_sphere_integer_division :
    boundaryVolume .SPHERE (fun _ => 1) = PI ∧
    (4 / 3 : ℝ) * PI * 1 * 1 * 1 ≠ PI := by
  constructor
  · show ((4 / 3 : ℤ) : ℝ) * PI * 1 * 1 * 1 = PI
    norm_num
  · simp only [mul_one]
    intro h
    have hpi : Real.pi ≠ 0 := Real.pi_ne_zero
    have : (4 / 3 : ℝ) = 1 := by
      field_simp [PI] at h
      nlinarith [Real.pi_pos]
    norm_num at this

/-- The coordinate mirror applied by reflectPoint in boundary.c for a
RECTANGULAR_BOX: case planeID = k of the switch replaces coordinate k / 2 of
the point by boundary1[k] + boundary1[k] - curPoint[k / 2] and leaves the
other two coordinates unchanged. -/
def reflectPointMirror (boundary1 : Fin 6 → ℝ) (planeID : Fin 6)
    (curPoint : Fin 3 → ℝ) : Fin 3 → ℝ :=
  match planeID with
  | 0 => Function.update curPoint 0 (boundary1 0 + boundary1 0 - curPoint 0)
  | 1 => Function.update curPoint 0 (boundary1 1 + boundary1 1 - curPoint 0)
  | 2 => Function.update curPoint 1 (boundary1 2 + boundary1 2 - curPoint 1)
  | 3 => Function.update curPoint 1 (boundary1 3 + boundary1 3 - curPoint 1)
  | 4 => Function.update curPoint 2 (boundary1 4 + boundary1 4 - curPoint 2)
  | 5 => Function.update curPoint 2 (boundary1 5 + boundary1 5 - curPoint 2)

/-- C8: for every box, every face and every point, applying the coordinate
mirror of reflectPoint for that face twice returns exactly the original
point, so the round trip is in particular within any nonnegative dist_error
of the original. -/
theorem reflectPointMirror_involution (boundary1 : Fin 6 → ℝ)
    (planeID : Fin 6) (curPoint : Fin 3 → ℝ) :
    reflectPointMirror boundary1 planeID
      (reflectPointMirror boundary1 planeID curPoint) = curPoint := by
  fin_cases planeID <;>
    · funext i
      fin_cases i <;>
        simp [reflectPointMirror, Function.update]

/-- pointDistance from boundary.c: the Euclidean distance between two
points. -/
def pointDistance (p1 p2 : Fin 3 → ℝ) : ℝ :=
  Real.sqrt (squareDBL (p2 0 - p1 0) + squareDBL (p2 1 - p1 1) +
    squareDBL (p2 2 - p1 2))

/-- Division as executed by the C source, with the division by zero made
observable: checkedDiv a b is none exactly when b = 0, the case in which
the C double division would produce an infinity or a NaN. -/
def checkedDiv (a b : ℝ) : Option ℝ :=
  if b = 0 then none else some (a / b)

/-- defineLine from boundary.c: the length output is the Euclidean distance
from p1 to p2; when it is positive each component of the direction L is the
corresponding coordinate difference divided by the length (the divisions are
embedded through checkedDiv), and otherwise L is set to zero and the length
output to zero without any division. -/
def defineLine (p1 p2 : Fin 3 → ℝ) : Option ((Fin 3 → ℝ) × ℝ) :=
  let length := pointDistance p1 p2
  if 0 < length then
    (checkedDiv (p2 0 - p1 0) length).bind fun L0 =>
      (checkedDiv (p2 1 - p1 1) length).bind fun L1 =>
        (checkedDiv (p2 2 - p1 2) length).bind fun L2 =>
          some (fun i => if i = 0 then L0 else if i = 1 then L1 else L2,
            length)
  else
    some (fun _ => 0, 0)

/-- C10: defineLine is total.  If the distance between the points is zero it
returns length 0 and the zero direction vector, executing no division; if
the distance is positive it returns the distance together with the unit
vector from p1 to p2 (each component the coordinate difference over the
distance, with Euclidean norm 1), and in either case no division by zero is
executed. -/
theorem defineLine_total (p1 p2 : Fin 3 → ℝ) :
    (pointDistance p1 p2 = 0 →
      defineLine p1 p2 = some (fun _ => 0, 0)) ∧
    (pointDistance p1 p2 ≠ 0 →
      defineLine p1 p2 = some
        (fun i => (p2 i - p1 i) / pointDistance p1 p2, pointDistance p1 p2) ∧
      Real.sqrt (squareDBL ((p2 0 - p1 0) / pointDistance p1 p2) +
        squareDBL ((p2 1 - p1 1) / pointDistance p1 p2) +
        squareDBL ((p2 2 - p1 2) / pointDistance p1 p2)) = 1) := by
  have hS : 0 ≤ squareDBL (p2 0 - p1 0) + squareDBL (p2 1 - p1 1) +
      squareDBL (p2 2 - p1 2) := by
    unfold squareDBL
    nlinarith [sq_nonneg (p2 0 - p1 0), sq_nonneg (p2 1 - p1 1),
      sq_nonneg (p2 2 - p1 2)]
  have hnn : 0 ≤ pointDistance p1 p2 := Real.sqrt_nonneg _
  constructor
  · intro h0
    unfold defineLine
    rw [if_neg]
    rw [h0]
    exact lt_irrefl 0
  · intro hne
    have hpos : 0 < pointDistance p1 p2 := lt_of_le_of_ne hnn (Ne.symm hne)
    constructor
    · have hfun : (fun i : Fin 3 =>
          if i = 0 then (p2 0 - p1 0) / pointDistance p1 p2
          else if i = 1 then (p2 1 - p1 1) / pointDistance p1 p2
          else (p2 2 - p1 2) / pointDistance p1 p2) =
          fun i => (p2 i - p1 i) / pointDistance p1 p2 := by
        funext x
        fin_cases x <;> simp
      unfold defineLine
      rw [if_pos hpos]
      unfold checkedDiv
      rw [if_neg hne, if_neg hne, if_neg hne]
      exact congrArg some (by rw [hfun])
    · have hsq : pointDistance p1 p2 * pointDistance p1 p2 =
          squareDBL (p2 0 - p1 0) + squareDBL (p2 1 - p1 1) +
            squareDBL (p2 2 - p1 2) := by
        unfold pointDistance
        exact Real.mul_self_sqrt hS
      have : squareDBL ((p2 0 - p1 0) / pointDistance p1 p2) +
          squareDBL ((p2 1 - p1 1) / pointDistance p1 p2) +
          squareDBL ((p2 2 - p1 2) / pointDistance p1 p2) = 1 := by
        unfold squareDBL at hsq ⊢
        field_simp
        linarith [hsq]
      rw [this, Real.sqrt_one]

/-- C10 witness: at the degenerate input p1 = p2 = 0 the distance is zero
and defineLine returns the zero direction and zero length. -/
theorem defineLine_total_witness :
    pointDistance (fun _ => 0) (fun _ => 0) = 0 ∧
    defineLine (fun _ => 0) (fun _ => 0) = some (fun _ => 0, 0) := by
  have h0 : pointDistance (fun _ => (0 : ℝ)) (fun _ => 0) = 0 := by
    unfold pointDistance squareDBL
    simp
  exact ⟨h0, (defineLine_total (fun _ => 0) (fun _ => 0)).1 h0⟩

/-- The plane tags PLANE_XY, PLANE_XZ, PLANE_YZ of global_param.h, used both
as rectangle plane identifiers and as the cylinder orientation stored in
boundary1[4]. -/
inductive PlaneOrientation
  | PLANE_XY
  | PLANE_XZ
  | PLANE_YZ

/-- The RECTANGLE case of bLineHitInfinitePlane in boundary.c: the source
computes d = (boundary1[k] - p1[axis]) / L[axis] with no test of L[axis]
before the division, then the intersection point d * L + p1.  The division
is embedded with checkedDiv, so the result is none exactly when the source
divides by a zero direction component. -/
def bLineHitInfinitePlaneRect (p1 L : Fin 3 → ℝ) (boundary1 : Fin 6 → ℝ)
    (planeID : PlaneOrientation) : Option (ℝ × (Fin 3 → ℝ)) :=
  (match planeID with
    | .PLANE_XY => checkedDiv (boundary1 4 - p1 2) (L 2)
    | .PLANE_XZ => checkedDiv (boundary1 2 - p1 1) (L 1)
    | .PLANE_YZ => checkedDiv (boundary1 0 - p1 0) (L 0)).map
    fun d => (d, fun i => d * L i + p1 i)

/-- The RECTANGULAR_BOX case of bLineHitInfinitePlane in boundary.c, with
the divisions by the direction components embedded through checkedDiv. -/
def bLineHitInfinitePlaneBox (p1 L : Fin 3 → ℝ) (boundary1 : Fin 6 → ℝ)
    (planeID : Fin 6) : Option (ℝ × (Fin 3 → ℝ)) :=
  (match planeID with
    | 0 => checkedDiv (boundary1 0 - p1 0) (L 0)
    | 1 => checkedDiv (boundary1 1 - p1 0) (L 0)
    | 2 => checkedDiv (boundary1 2 - p1 1) (L 1)
    | 3 => checkedDiv (boundary1 3 - p1 1) (L 1)
    | 4 => checkedDiv (boundary1 4 - p1 2) (L 2)
    | 5 => checkedDiv (boundary1 5 - p1 2) (L 2)).map
    fun d => (d, fun i => d * L i + p1 i)

/-- C2: the claim that the division by L[axis] is guarded fails on the code.
In the RECTANGLE case of bLineHitInfinitePlane with planeID PLANE_XY, the
direction vector L = 0 (which defineLine produces for a degenerate line)
and a start point lying on the plane boundary1[4] = 0, the source executes
the division (0 - 0) / 0, which in C produces a NaN; the checked embedding
returns none, witnessing that the division is executed with a zero
divisor. -/
theorem bLineHitInfinitePlaneRect_divides_by_zero :
    bLineHitInfinitePlaneRect (fun _ => 0) (fun _ => 0) (fun _ => 0)
      .PLANE_XY = none := by
  simp [bLineHitInfinitePlaneRect, checkedDiv]

/-- The cylinder boundary layout of boundary.c: boundary1[0..2] is the base
point, boundary1[3] the radius, boundary1[4] the orientation tag and
boundary1[5] the length. -/
structure CylinderBoundary where
  c : Fin 3 → ℝ
  radius : ℝ
  orientation : PlaneOrientation
  len : ℝ

/-- The CYLINDER case of bPointOnFace in boundary.c, with the comparisons
written exactly as in the source: every radial test compares the distance
from the axis against boundary1[5] (the length field b1.len), and the
mantle range tests of the PLANE_XZ and PLANE_YZ orientations test p1[2]
where the axis coordinate differs. -/
def bPointOnFaceCylinder (p1 : Fin 3 → ℝ) (b1 : CylinderBoundary)
    (planeID : ℕ) : Prop :=
  match b1.orientation with
  | .PLANE_XY =>
    if planeID = 4 ∨ planeID = 5 then
      Real.sqrt (squareDBL (p1 0 - b1.c 0) + squareDBL (p1 1 - b1.c 1)) ≤
          b1.len ∧
        (p1 2 = b1.c 2 ∨ p1 2 = b1.c 2 + b1.len)
    else
      Real.sqrt (squareDBL (p1 0 - b1.c 0) + squareDBL (p1 1 - b1.c 1)) =
          b1.len ∧
        (b1.c 2 ≤ p1 2 ∧ p1 2 ≤ b1.c 2 + b1.len)
  | .PLANE_XZ =>
    if planeID = 2 ∨ planeID = 3 then
      Real.sqrt (squareDBL (p1 0 - b1.c 0) + squareDBL (p1 2 - b1.c 2)) ≤
          b1.len ∧
        (p1 1 = b1.c 1 ∨ p1 1 = b1.c 1 + b1.len)
    else
      Real.sqrt (squareDBL (p1 0 - b1.c 0) + squareDBL (p1 2 - b1.c 2)) =
          b1.len ∧
        (b1.c 1 ≤ p1 1 ∧ p1 2 ≤ b1.c 1 + b1.len)
  | .PLANE_YZ =>
    if planeID = 0 ∨ planeID = 1 then
      Real.sqrt (squareDBL (p1 1 - b1.c 1) + squareDBL (p1 2 - b1.c 2)) ≤
          b1.len ∧
        (p1 0 = b1.c 0 ∨ p1 0 = b1.c 0 + b1.len)
    else
      Real.sqrt (squareDBL (p1 1 - b1.c 1) + squareDBL (p1 2 - b1.c 2)) =
          b1.len ∧
        (b1.c 0 ≤ p1 0 ∧ p1 2 ≤ b1.c 0 + b1.len)

/-- The CYLINDER case of bPointOnFace as claim C5 requires it: identical to
bPointOnFaceCylinder except that every radial comparison uses the radius
boundary1[3] (b1.radius) in place of boundary1[5]. -/
def bPointOnFaceCylinderSpec (p1 : Fin 3 → ℝ) (b1 : CylinderBoundary)
    (planeID : ℕ) : Prop :=
  match b1.orientation with
  | .PLANE_XY =>
    if planeID = 4 ∨ planeID = 5 then
      Real.sqrt (squareDBL (p1 0 - b1.c 0) + squareDBL (p1 1 - b1.c 1)) ≤
          b1.radius ∧
        (p1 2 = b1.c 2 ∨ p1 2 = b1.c 2 + b1.len)
    else
      Real.sqrt (squareDBL (p1 0 - b1.c 0) + squareDBL (p1 1 - b1.c 1)) =
          b1.radius ∧
        (b1.c 2 ≤ p1 2 ∧ p1 2 ≤ b1.c 2 + b1.len)
  | .PLANE_XZ =>
    if planeID = 2 ∨ planeID = 3 then
      Real.sqrt (squareDBL (p1 0 - b1.c 0) + squareDBL (p1 2 - b1.c 2)) ≤
          b1.radius ∧
        (p1 1 = b1.c 1 ∨ p1 1 = b1.c 1 + b1.len)
    else
      Real.sqrt (squareDBL (p1 0 - b1.c 0) + squareDBL (p1 2 - b1.c 2)) =
          b1.radius ∧
        (b1.c 1 ≤ p1 1 ∧ p1 2 ≤ b1.c 1 + b1.len)
  | .PLANE_YZ =>
    if planeID = 0 ∨ planeID = 1 then
      Real.sqrt (squareDBL (p1 1 - b1.c 1) + squareDBL (p1 2 - b1.c 2)) ≤
          b1.radius ∧
        (p1 0 = b1.c 0 ∨ p1 0 = b1.c 0 + b1.len)
    else
      Real.sqrt (squareDBL (p1 1 - b1.c 1) + squareDBL (p1 2 - b1.c 2)) =
          b1.radius ∧
        (b1.c 0 ≤ p1 0 ∧ p1 2 ≤ b1.c 0 + b1.len)

/-- C5: the radial tests of the cylinder case of bPointOnFace use the length
boundary1[5] and not the radius boundary1[3].  For the cylinder with base
point 0, radius 1, orientation PLANE_XY and length 5, the point (1, 0, 2)
lies on the mantle (radial distance 1 = radius, axial coordinate within
the extent), so the claimed radius-based test accepts it, but the code
compares the radial distance 1 against the length 5 and rejects it. -/
theorem bPointOnFaceCylinder_uses_length :
    ¬ bPointOnFaceCylinder ![1, 0, 2] ⟨fun _ => 0, 1, .PLANE_XY, 5⟩ 0 ∧
      bPointOnFaceCylinderSpec ![1, 0, 2] ⟨fun _ => 0, 1, .PLANE_XY, 5⟩ 0 := by
  have hs : Real.sqrt ((1 - 0 : ℝ) * (1 - 0) + (0 - 0) * (0 - 0)) = 1 := by
    norm_num
  constructor
  · simp only [bPointOnFaceCylinder, squareDBL, Matrix.cons_val_zero,
      Matrix.cons_val_one, Matrix.head_cons, Matrix.cons_val_two,
      Matrix.tail_cons]
    norm_num [hs]
  · simp only [bPointOnFaceCylinderSpec, squareDBL, Matrix.cons_val_zero,
      Matrix.cons_val_one, Matrix.head_cons, Matrix.cons_val_two,
      Matrix.tail_cons]
    norm_num [hs]

/-- Array access b[k] for a boundary double[6]; every index the embedded
code forms is in range, and an out-of-range index reads 0. -/
def bnd (b : Fin 6 → ℝ) (k : ℕ) : ℝ := if h : k < 6 then b ⟨k, h⟩ else 0

/-- Array access p[k] for a point double[3]. -/
def coord (p : Fin 3 → ℝ) (k : ℕ) : ℝ := if h : k < 3 then p ⟨k, h⟩ else 0

/-- The axial index assigned to the variable along by the cylinder branches
of bBoundaryIntersect and bLineHitBoundary in boundary.c. -/
def cylAlong : PlaneOrientation → ℕ
  | .PLANE_XY => 2
  | .PLANE_XZ => 1
  | .PLANE_YZ => 0

/-- The first cross-section index across1 of the cylinder branches. -/
def cylAcross1 : PlaneOrientation → ℕ
  | .PLANE_XY => 0
  | .PLANE_XZ => 0
  | .PLANE_YZ => 1

/-- The second cross-section index across2 of the cylinder branches. -/
def cylAcross2 : PlaneOrientation → ℕ
  | .PLANE_XY => 1
  | .PLANE_XZ => 2
  | .PLANE_YZ => 2

/-- The axial-extent test lengthcheck of the CYLINDER versus RECTANGULAR_BOX
branch of bBoundaryIntersect in boundary.c. -/
def cylBoxLengthcheck (b1 : CylinderBoundary) (boundary2 : Fin 6 → ℝ)
    (clearance : ℝ) : Prop :=
  bnd boundary2 (2 * cylAlong b1.orientation) ≤
      coord b1.c (cylAlong b1.orientation) + b1.len - clearance ∧
    bnd boundary2 (2 * cylAlong b1.orientation + 1) ≥
      coord b1.c (cylAlong b1.orientation) + clearance

/-- The cross-section test areacheck of the CYLINDER versus RECTANGULAR_BOX
branch of bBoundaryIntersect in boundary.c, written exactly as in the
source: the expression testing the corner (boundary2[2 across1],
boundary2[2 across2]) against the circle is repeated verbatim four times,
so all four disjuncts test the same corner, followed by the test of the
circle center against the rectangle. -/
def cylBoxAreacheck (b1 : CylinderBoundary) (boundary2 : Fin 6 → ℝ)
    (clearance : ℝ) : Prop :=
  Real.sqrt (squareDBL (bnd boundary2 (2 * cylAcross1 b1.orientation) -
        coord b1.c (cylAcross1 b1.orientation)) +
      squareDBL (bnd boundary2 (2 * cylAcross2 b1.orientation) -
        coord b1.c (cylAcross2 b1.orientation))) ≤ b1.radius - clearance ∨
  Real.sqrt (squareDBL (bnd boundary2 (2 * cylAcross1 b1.orientation) -
        coord b1.c (cylAcross1 b1.orientation)) +
      squareDBL (bnd boundary2 (2 * cylAcross2 b1.orientation) -
        coord b1.c (cylAcross2 b1.orientation))) ≤ b1.radius - clearance ∨
  Real.sqrt (squareDBL (bnd boundary2 (2 * cylAcross1 b1.orientation) -
        coord b1.c (cylAcross1 b1.orientation)) +
      squareDBL (bnd boundary2 (2 * cylAcross2 b1.orientation) -
        coord b1.c (cylAcross2 b1.orientation))) ≤ b1.radius - clearance ∨
  Real.sqrt (squareDBL (bnd boundary2 (2 * cylAcross1 b1.orientation) -
        coord b1.c (cylAcross1 b1.orientation)) +
      squareDBL (bnd boundary2 (2 * cylAcross2 b1.orientation) -
        coord b1.c (cylAcross2 b1.orientation))) ≤ b1.radius - clearance ∨
  (coord b1.c (cylAcross1 b1.orientation) ≥
      bnd boundary2 (cylAcross1 b1.orientation * 2) ∧
    coord b1.c (cylAcross1 b1.orientation) ≤
      bnd boundary2 (cylAcross1 b1.orientation * 2 + 1) ∧
    coord b1.c (cylAcross2 b1.orientation) ≥
      bnd boundary2 (cylAcross2 b1.orientation * 2) ∧
    coord b1.c (cylAcross2 b1.orientation) ≤
      bnd boundary2 (cylAcross2 b1.orientation * 2 + 1))

/-- The CYLINDER versus RECTANGULAR_BOX branch of bBoundaryIntersect in
boundary.c: lengthcheck and areacheck must both hold. -/
def bBoundaryIntersectCylBox (b1 : CylinderBoundary) (boundary2 : Fin 6 → ℝ)
    (clearance : ℝ) : Prop :=
  cylBoxLengthcheck b1 boundary2 clearance ∧
    cylBoxAreacheck b1 boundary2 clearance

/-- The cross-section test as claim C3 describes it: each of the four
distinct corners of the rectangle cross-section is tested against the
circle shrunk by the clearance, or the circle center lies inside the
rectangle. -/
def cylBoxAreacheckSpec (b1 : CylinderBoundary) (boundary2 : Fin 6 → ℝ)
    (clearance : ℝ) : Prop :=
  Real.sqrt (squareDBL (bnd boundary2 (2 * cylAcross1 b1.orientation) -
        coord b1.c (cylAcross1 b1.orientation)) +
      squareDBL (bnd boundary2 (2 * cylAcross2 b1.orientation) -
        coord b1.c (cylAcross2 b1.orientation))) ≤ b1.radius - clearance ∨
  Real.sqrt (squareDBL (bnd boundary2 (2 * cylAcross1 b1.orientation) -
        coord b1.c (cylAcross1 b1.orientation)) +
      squareDBL (bnd boundary2 (2 * cylAcross2 b1.orientation + 1) -
        coord b1.c (cylAcross2 b1.orientation))) ≤ b1.radius - clearance ∨
  Real.sqrt (squareDBL (bnd boundary2 (2 * cylAcross1 b1.orientation + 1) -
        coord b1.c (cylAcross1 b1.orientation)) +
      squareDBL (bnd boundary2 (2 * cylAcross2 b1.orientation) -
        coord b1.c (cylAcross2 b1.orientation))) ≤ b1.radius - clearance ∨
  Real.sqrt (squareDBL (bnd boundary2 (2 * cylAcross1 b1.orientation + 1) -
        coord b1.c (cylAcross1 b1.orientation)) +
      squareDBL (bnd boundary2 (2 * cylAcross2 b1.orientation + 1) -
        coord b1.c (cylAcross2 b1.orientation))) ≤ b1.radius - clearance ∨
  (coord b1.c (cylAcross1 b1.orientation) ≥
      bnd boundary2 (cylAcross1 b1.orientation * 2) ∧
    coord b1.c (cylAcross1 b1.orientation) ≤
      bnd boundary2 (cylAcross1 b1.orientation * 2 + 1) ∧
    coord b1.c (cylAcross2 b1.orientation) ≥
      bnd boundary2 (cylAcross2 b1.orientation * 2) ∧
    coord b1.c (cylAcross2 b1.orientation) ≤
      bnd boundary2 (cylAcross2 b1.orientation * 2 + 1))

/-- C3: the four corner tests of the code examine one and the same corner,
not four different corners.  For the cylinder along z with base point
(3, 3, 0), radius 3/2 and length 2 against the box [0,2]^3 with zero
clearance, the axial extents overlap and the corner (2, 2) of the
cross-section rectangle lies in the circle, so the four-distinct-corner
test of the claim accepts, but the code tests only the corner (0, 0)
(four times), which is outside the circle, and the circle center (3, 3)
is outside the rectangle, so bBoundaryIntersect returns false. -/
theorem bBoundaryIntersectCylBox_repeated_corner :
    ¬ bBoundaryIntersectCylBox
        ⟨fun i => if i.val = 2 then 0 else 3, 3 / 2, .PLANE_XY, 2⟩
        (fun k => if k.val % 2 = 0 then 0 else 2) 0 ∧
      cylBoxLengthcheck
        ⟨fun i => if i.val = 2 then 0 else 3, 3 / 2, .PLANE_XY, 2⟩
        (fun k => if k.val % 2 = 0 then 0 else 2) 0 ∧
      cylBoxAreacheckSpec
        ⟨fun i => if i.val = 2 then 0 else 3, 3 / 2, .PLANE_XY, 2⟩
        (fun k => if k.val % 2 = 0 then 0 else 2) 0 := by
  refine ⟨?_, ?_, ?_⟩
  · intro h
    have harea := h.2
    norm_num [cylBoxAreacheck, cylAcross1, cylAcross2, bnd, coord,
      squareDBL, Real.sqrt_le_iff] at harea
  · norm_num [cylBoxLengthcheck, cylAlong, bnd, coord]
  · norm_num [cylBoxAreacheckSpec, cylAcross1, cylAcross2, bnd, coord,
      squareDBL, Real.sqrt_le_iff]

/-- The region shapes that loadConfig in file_io.c dispatches on after
parsing the Shape string (an invalid string is replaced by
RECTANGULAR_BOX before this dispatch). -/
inductive RegionShape
  | RECTANGLE
  | CIRCLE
  | RECTANGULAR_BOX
  | SPHERE
  | CYLINDER

/-- The bMicro assignment of the region loop of loadConfig in file_io.c.
Rectangular regions read the configuration item, with default false when it
is absent or invalid; the CYLINDER branch and the final branch for round
regions (SPHERE and CIRCLE) assign true unconditionally, and only warn when
the configuration supplies the item.  The supplied item is embedded as an
Option Bool, none when absent or invalid. -/
def loadRegionBMicro (shape : RegionShape) (bMicroSupplied : Option Bool) :
    Bool :=
  match shape with
  | .RECTANGULAR_BOX | .RECTANGLE =>
    match bMicroSupplied with
    | none => false
    | some b => b
  | .CYLINDER => true
  | _ => true

/-- C9: after the region loop of loadConfig, every CYLINDER and every
SPHERE region has bMicro = true, whatever value (or absence of value) the
configuration supplied for the item controlling microscopic regions. -/
theorem loadRegionBMicro_cylinder_sphere (bMicroSupplied : Option Bool) :
    loadRegionBMicro .CYLINDER bMicroSupplied = true ∧
      loadRegionBMicro .SPHERE bMicroSupplied = true := by
  exact ⟨rfl, rfl⟩

/-- The surface reaction types of chem_rxn.h dispatched on by the
first-order branches of initializeRegionChemRxn. -/
inductive SurfRxnType
  | RXN_NORMAL
  | RXN_ABSORBING
  | RXN_RECEPTOR
  | RXN_MEMBRANE
deriving DecidableEq

/-- The data initializeRegionChemRxn in chem_rxn.c uses about one chemical
reaction when it builds the first-order table for one region and one
molecule type j: the reaction order rxnOrder[k] (the total reactant
count), the entry chem_rxn[k].reactants[j], the compiled rate
regionArray[i].rxnRate[k] together with the flag telling whether that
double is INFINITY (the rate field is meaningful only when rateIsInf is
false), and chem_rxn[k].surfRxnType. -/
structure ChemRxn where
  order : ℕ
  reactant : ℕ
  rate : ℝ
  rateIsInf : Bool
  surfRxnType : SurfRxnType

/-- The reactions the scan loop of initializeRegionChemRxn selects for the
table of molecule type j: the first-order reactions with reactants[j] > 0
(for a first-order reaction this makes j the sole reactant). -/
def firstRxns (rxns : List ChemRxn) : List ChemRxn :=
  rxns.filter fun r => r.order == 1 && r.reactant != 0

/-- numInfRxn of initializeRegionChemRxn: how many selected reactions have
rate INFINITY.  Its C type is unsigned short, so the expression
1/numInfRxn of the source is evaluated with integer division. -/
def numInfRxn (rxns : List ChemRxn) : ℕ :=
  (firstRxns rxns).countP fun r => r.rateIsInf

/-- uniSumRate[j]: the sum of the compiled rates of the selected reactions.
When one of them is the double INFINITY the C sum is INFINITY; that case
is tracked by uniSumRateIsInf and this real value is then never used. -/
def uniSumRate (rxns : List ChemRxn) : ℝ :=
  ((firstRxns rxns).map fun r => r.rate).sum

/-- Whether the C double uniSumRate[j] is INFINITY: adding INFINITY to the
accumulator poisons it, so the sum is infinite exactly when a selected
reaction has infinite rate. -/
def uniSumRateIsInf (rxns : List ChemRxn) : Bool :=
  (firstRxns rxns).any fun r => r.rateIsInf

/-- bHasExclusiveRxn of initializeRegionChemRxn: some selected reaction has
a surface type other than RXN_NORMAL. -/
def bHasExclusiveRxn (rxns : List ChemRxn) : Bool :=
  (firstRxns rxns).any fun r => !(r.surfRxnType == SurfRxnType.RXN_NORMAL)

/-- One entry of uniRelativeRate[j]: the RXN_ABSORBING branch stores the
compiled rate itself; otherwise an infinite-rate reaction stores the C
integer quotient 1/numInfRxn, and a finite-rate reaction stores
rate / uniSumRate, which is 0 when the double uniSumRate is INFINITY. -/
def uniRelativeRateEntry (numInf : ℕ) (sumIsInf : Bool) (sumRate : ℝ)
    (r : ChemRxn) : ℝ :=
  match r.surfRxnType with
  | .RXN_ABSORBING => r.rate
  | _ =>
    if r.rateIsInf then ((1 / numInf : ℕ) : ℝ)
    else if sumIsInf then 0 else r.rate / sumRate

/-- The entries uniCumProb[j][k] built by the cumulative-probability loop
of initializeRegionChemRxn, carrying the previous entry (uniCumProb[j][0]
is initialized to 0 before the loop).  The RXN_ABSORBING branch writes the
compiled rate itself; in the source it writes index 0, which matches this
per-position embedding because an absorbing reaction that is not the only
selected reaction makes the initialization exit before this loop runs.
When the double uniSumRate is INFINITY and dt > 0, C evaluates
exp(-dt uniSumRate) to 0 and the relative rate of a finite-rate entry to
0, so such an entry adds 0; those doubles are embedded by the sumIsInf
conditionals. -/
def uniCumProbEntries (numInf : ℕ) (sumIsInf : Bool) (sumRate dt : ℝ) :
    ℝ → List ChemRxn → List ℝ
  | _, [] => []
  | prev, r :: rest =>
    let cur :=
      match r.surfRxnType with
      | .RXN_ABSORBING => r.rate
      | _ =>
        if r.rateIsInf then prev + ((1 / numInf : ℕ) : ℝ)
        else
          prev +
            (if sumIsInf then 0 else r.rate / sumRate) *
              (1 - (if sumIsInf then 0 else Real.exp (-dt * sumRate)))
    cur :: uniCumProbEntries numInf sumIsInf sumRate dt cur rest

/-- The outputs of initializeRegionChemRxn for one region and one molecule
type: uniRelativeRate[j], uniCumProb[j] and minRxnTimeRV[j]. -/
structure RxnTable where
  uniRelativeRate : List ℝ
  uniCumProb : List ℝ
  minRxnTimeRV : ℝ

/-- The first-order table construction of initializeRegionChemRxn in
chem_rxn.c for one region and one molecule type j with region time step
dt: select the reactions with j as sole reactant; exit with an error
(embedded as none) when a selected reaction is exclusive (non-normal
surface type) while more than one reaction is selected; otherwise build
the relative rates, the cumulative probabilities and
minRxnTimeRV[j] = exp(-dt uniSumRate[j]) (0 when the double uniSumRate is
INFINITY and dt > 0). -/
def initializeRegionChemRxnFirstOrder (dt : ℝ) (rxns : List ChemRxn) :
    Option RxnTable :=
  if bHasExclusiveRxn rxns && decide (1 < (firstRxns rxns).length) then none
  else
    some
      ⟨(firstRxns rxns).map
          (uniRelativeRateEntry (numInfRxn rxns) (uniSumRateIsInf rxns)
            (uniSumRate rxns)),
        uniCumProbEntries (numInfRxn rxns) (uniSumRateIsInf rxns)
          (uniSumRate rxns) dt 0 (firstRxns rxns),
        if uniSumRateIsInf rxns then 0
        else Real.exp (-dt * uniSumRate rxns)⟩

/-- C6: when molecule type j participates in more than one selected
first-order reaction in a region and at least one of those reactions is a
non-normal surface reaction (absorbing, receptor or membrane),
initializeRegionChemRxn reports an error and exits during initialization,
before any simulation step runs; the exit is embedded as the result
none. -/
theorem initializeRegionChemRxnFirstOrder_exclusive_fatal
    (dt : ℝ) (rxns : List ChemRxn)
    (hlen : 1 < (firstRxns rxns).length)
    (hexcl : ∃ r ∈ firstRxns rxns, r.surfRxnType ≠ SurfRxnType.RXN_NORMAL) :
    initializeRegionChemRxnFirstOrder dt rxns = none := by
  unfold initializeRegionChemRxnFirstOrder
  have h1 : bHasExclusiveRxn rxns = true := by
    obtain ⟨r, hr, hne⟩ := hexcl
    unfold bHasExclusiveRxn
    rw [List.any_eq_true]
    exact ⟨r, hr, by simpa using hne⟩
  rw [h1]
  simp [hlen]

/-- C6 witness: a region in which one molecule type has two selected
first-order reactions, one of them absorbing, makes the initialization
exit. -/
theorem initializeRegionChemRxnFirstOrder_exclusive_fatal_witness :
    initializeRegionChemRxnFirstOrder 1
      [⟨1, 1, 1, false, .RXN_ABSORBING⟩, ⟨1, 1, 1, false, .RXN_NORMAL⟩] =
      none := by
  apply initializeRegionChemRxnFirstOrder_exclusive_fatal
  · simp [firstRxns]
  · exact ⟨⟨1, 1, 1, false, .RXN_ABSORBING⟩, by simp [firstRxns], by simp⟩

/-- C4: with n = 2 infinite-rate first-order reactions for the same sole
reactant, the source assigns each of them the relative rate 1/numInfRxn
evaluated with C integer division, which is 0 and not the claimed 1/2,
and likewise adds 0 and not 1/2 to the cumulative probabilities, so the
two entries are 0 and 0 instead of 1/2 and 1: the infinite-rate reactions
receive none of the unit probability mass instead of all of it. -/
theorem initializeRegionChemRxn_infinite_rate_integer_division :
    initializeRegionChemRxnFirstOrder 1
      [⟨1, 1, 0, true, .RXN_NORMAL⟩, ⟨1, 1, 0, true, .RXN_NORMAL⟩] =
      some ⟨[0, 0], [0, 0], 0⟩ ∧ (0 : ℝ) ≠ 1 / 2 := by
  constructor
  · norm_num [initializeRegionChemRxnFirstOrder, firstRxns, numInfRxn,
      uniSumRateIsInf, uniSumRate, bHasExclusiveRxn, uniRelativeRateEntry,
      uniCumProbEntries]
  · norm_num

/-- The cumulative table exactly as the specification formula states it:
C[k] = C[k-1] + (r_k / sum) (1 - exp(-dt sum)), carried from C[-1] = 0
over the list of compiled rates of the selected reactions. -/
def specCumProb (dt sumRate : ℝ) : ℝ → List ℝ → List ℝ
  | _, [] => []
  | prev, r :: rest =>
    (prev + r / sumRate * (1 - Real.exp (-dt * sumRate))) ::
      specCumProb dt sumRate
        (prev + r / sumRate * (1 - Real.exp (-dt * sumRate))) rest

/-- On a list of finite-rate, non-absorbing reactions the cumulative loop
of the code computes exactly the specification formula, whatever the
carried previous entry. -/
theorem uniCumProbEntries_eq_spec (numInf : ℕ) (sumRate dt : ℝ) :
    ∀ (l : List ChemRxn) (prev : ℝ),
      (∀ r ∈ l, r.rateIsInf = false) →
      (∀ r ∈ l, r.surfRxnType ≠ SurfRxnType.RXN_ABSORBING) →
      uniCumProbEntries numInf false sumRate dt prev l =
        specCumProb dt sumRate prev (l.map fun r => r.rate) := by
  intro l
  induction l with
  | nil => intro prev _ _; rfl
  | cons r rest ih =>
    intro prev hfin habs
    have hr : r.rateIsInf = false := hfin r (by simp)
    have ha : r.surfRxnType ≠ SurfRxnType.RXN_ABSORBING :=
      habs r (by simp)
    have hrest1 : ∀ x ∈ rest, x.rateIsInf = false := fun x hx =>
      hfin x (by simp [hx])
    have hrest2 : ∀ x ∈ rest, x.surfRxnType ≠ SurfRxnType.RXN_ABSORBING :=
      fun x hx => habs x (by simp [hx])
    unfold uniCumProbEntries specCumProb
    cases hst : r.surfRxnType with
    | RXN_ABSORBING => exact absurd hst ha
    | RXN_NORMAL =>
      simp only [hst, hr, Bool.false_eq_true, if_false, List.map_cons]
      exact congrArg _ (ih _ hrest1 hrest2)
    | RXN_RECEPTOR =>
      simp only [hst, hr, Bool.false_eq_true, if_false, List.map_cons]
      exact congrArg _ (ih _ hrest1 hrest2)
    | RXN_MEMBRANE =>
      simp only [hst, hr, Bool.false_eq_true, if_false, List.map_cons]
      exact congrArg _ (ih _ hrest1 hrest2)

/-- The specification formula produces one entry per selected reaction. -/
theorem specCumProb_length (dt sumRate : ℝ) :
    ∀ (l : List ℝ) (prev : ℝ),
      (specCumProb dt sumRate prev l).length = l.length := by
  intro l
  induction l with
  | nil => intro prev; rfl
  | cons r rest ih =>
    intro prev
    unfold specCumProb
    simp [ih]

/-- C7 amended: when every reaction selected for molecule type j has a
finite rate and none of them is absorbing, and the initialization does not
exit, the compiled cumulative table has exactly one entry per selected
first-order reaction with j as sole reactant, every entry satisfies
C[j][k] = C[j][k-1] + (r_k / sum r)(1 - exp(-dt sum r)) (the table equals
the specification formula over the selected rates), and
minRxnTimeRV[j] = exp(-dt sum r).  An absorbing (finite-rate) entry is
excluded: the code stores its compiled rate directly instead of applying
the formula. -/
theorem initializeRegionChemRxn_cumprob_formula
    (dt : ℝ) (rxns : List ChemRxn) (t : RxnTable)
    (hfin : ∀ r ∈ firstRxns rxns, r.rateIsInf = false)
    (habs : ∀ r ∈ firstRxns rxns,
      r.surfRxnType ≠ SurfRxnType.RXN_ABSORBING)
    (hsome : initializeRegionChemRxnFirstOrder dt rxns = some t) :
    t.uniCumProb =
        specCumProb dt (uniSumRate rxns) 0
          ((firstRxns rxns).map fun r => r.rate) ∧
      t.uniCumProb.length = (firstRxns rxns).length ∧
      t.minRxnTimeRV = Real.exp (-dt * uniSumRate rxns) := by
  have hinf : uniSumRateIsInf rxns = false := by
    unfold uniSumRateIsInf
    rw [List.any_eq_false]
    intro r hr
    simp [hfin r hr]
  unfold initializeRegionChemRxnFirstOrder at hsome
  by_cases hg :
      (bHasExclusiveRxn rxns && decide (1 < (firstRxns rxns).length)) = true
  · rw [if_pos hg] at hsome
    exact absurd hsome (by simp)
  · rw [if_neg hg] at hsome
    have ht := Option.some.inj hsome
    subst ht
    refine ⟨?_, ?_, ?_⟩
    · rw [hinf]
      exact uniCumProbEntries_eq_spec (numInfRxn rxns) (uniSumRate rxns) dt
        (firstRxns rxns) 0 hfin habs
    · rw [hinf]
      rw [uniCumProbEntries_eq_spec (numInfRxn rxns) (uniSumRate rxns) dt
        (firstRxns rxns) 0 hfin habs]
      rw [specCumProb_length]
      exact List.length_map _ _
    · rw [hinf]
      simp

/-- C7 witness: one normal first-order reaction of compiled rate 1 with
dt = 1 produces the table entry 1 - exp(-1) demanded by the formula. -/
theorem initializeRegionChemRxn_cumprob_formula_witness :
    initializeRegionChemRxnFirstOrder 1 [⟨1, 1, 1, false, .RXN_NORMAL⟩] =
        some ⟨[1], [1 - Real.exp (-1)], Real.exp (-1)⟩ ∧
      (⟨[1], [1 - Real.exp (-1)], Real.exp (-1)⟩ : RxnTable).uniCumProb =
        specCumProb 1 (uniSumRate [⟨1, 1, 1, false, .RXN_NORMAL⟩]) 0
          ((firstRxns [⟨1, 1, 1, false, .RXN_NORMAL⟩]).map fun r => r.rate) := by
  have hsome :
      initializeRegionChemRxnFirstOrder 1 [⟨1, 1, 1, false, .RXN_NORMAL⟩] =
        some ⟨[1], [1 - Real.exp (-1)], Real.exp (-1)⟩ := by
    norm_num [initializeRegionChemRxnFirstOrder, firstRxns, numInfRxn,
      uniSumRateIsInf, uniSumRate, bHasExclusiveRxn, uniRelativeRateEntry,
      uniCumProbEntries]
  refine ⟨hsome, ?_⟩
  exact (initializeRegionChemRxn_cumprob_formula 1
    [⟨1, 1, 1, false, .RXN_NORMAL⟩] _
    (by simp [firstRxns]) (by simp [firstRxns]) hsome).1

/-- C7 counterexample: a single absorbing reaction with compiled rate 1 and
dt = 1 is a finite-rate entry of the table, but the code stores the rate 1
itself as uniCumProb[j][0], while the formula of the claim yields
1 - exp(-1); the two differ because exp(-1) is positive. -/
theorem initializeRegionChemRxn_absorbing_entry_breaks_formula :
    (initializeRegionChemRxnFirstOrder 1
          [⟨1, 1, 1, false, .RXN_ABSORBING⟩]).map RxnTable.uniCumProb =
        some [1] ∧
      specCumProb 1 (uniSumRate [⟨1, 1, 1, false, .RXN_ABSORBING⟩]) 0
          ((firstRxns [⟨1, 1, 1, false, .RXN_ABSORBING⟩]).map
            fun r => r.rate) = [1 - Real.exp (-1)] ∧
      (1 : ℝ) ≠ 1 - Real.exp (-1) := by
  refine ⟨?_, ?_, ?_⟩
  · norm_num [initializeRegionChemRxnFirstOrder, firstRxns, numInfRxn,
      uniSumRateIsInf, uniSumRate, bHasExclusiveRxn, uniRelativeRateEntry,
      uniCumProbEntries]
  · norm_num [specCumProb, firstRxns, uniSumRate]
  · have hpos := Real.exp_pos (-1 : ℝ)
    intro h
    linarith

end AcCoRD
